import Mathlib

/-!
Verification development for the PyReact transpiler core (pyreact.py).

The Python source walks a Python `ast` tree of a component class and emits
JavaScript/React source text.  This file gives a shallow embedding of the
syntax-tree fragment the transpiler inspects and of every transpiler
function the claims touch, followed by theorems settling the claims.

Naming: each Lean definition carries the name of the Python method it
embeds (leading underscores dropped).  The `ast` node classes are embedded
as the mutual inductive family below; node kinds the transpiler never
matches on are collapsed into the catch-all constructor `Expr.other`
(respectively `Stmt.other`, `ClassItem.other`), which is exactly how the
Python code treats them (it only ever isinstance-checks the supported
kinds).
-/

set_option autoImplicit false

/-- A Python constant value as carried by an `ast.Constant` node: a string,
an int, a bool, or None.  (The transpiler only ever distinguishes str and
bool specially; every other constant is stringified.) -/
inductive Const where
  | s (v : String)
  | i (v : Int)
  | b (v : Bool)
  | noneV
  deriving BEq, DecidableEq, Repr

/-- Binary operator of an `ast.BinOp` node.  The transpiler special-cases
Add, Sub, Mult and Div; every other operator falls to a raw juxtaposition
branch, embedded here as `BOp.other`. -/
inductive BOp where
  | add
  | sub
  | mult
  | div
  | other
  deriving BEq, DecidableEq, Repr

mutual
/-- Expression nodes: the tagged union of `ast` expression kinds the
transpiler dispatches on (`ast.Constant`, `ast.Name`, `ast.Attribute`,
`ast.Subscript`, `ast.BinOp`, `ast.JoinedStr`, `ast.Call`, `ast.Dict`,
`ast.List`); `Expr.other` stands for any expression node of a kind outside
that set (for example a comparison or a lambda), tagged with its kind name. -/
inductive Expr where
  | constant (c : Const)
  | name (id : String)
  | attrib (value : Expr) (attr : String)
  | subscript (value : Expr) (slice : Expr)
  | binop (op : BOp) (left : Expr) (right : Expr)
  | joinedStr (values : FParts)
  | call (func : Expr) (args : Exprs) (kwargs : Kwargs)
  | dictLit (pairs : Pairs)
  | listLit (elts : Exprs)
  | other (kind : String)
  deriving Repr
/-- A list of expression nodes (positional call arguments, list elements). -/
inductive Exprs where
  | nil
  | cons (head : Expr) (tail : Exprs)
  deriving Repr
/-- Key/value pairs of an `ast.Dict` literal, in source order. -/
inductive Pairs where
  | nil
  | cons (key : Expr) (val : Expr) (tail : Pairs)
  deriving Repr
/-- Keyword arguments of an `ast.Call`, in source order. -/
inductive Kwargs where
  | nil
  | cons (key : String) (value : Expr) (tail : Kwargs)
  deriving Repr
/-- The parts of an `ast.JoinedStr` (f-string): literal text segments
(`ast.Constant` parts) and formatted embedded expressions
(`ast.FormattedValue` parts), in order. -/
inductive FParts where
  | nil
  | lit (s : String) (tail : FParts)
  | fmt (e : Expr) (tail : FParts)
  deriving Repr
end

/-- Statement nodes: `ast.Assign`, `ast.Return` (whose value may be absent,
as in a bare `return`), `ast.Expr` (expression statement), and a catch-all
for every other statement kind. -/
inductive Stmt where
  | assign (targets : List Expr) (value : Expr)
  | ret (value : Option Expr)
  | exprStmt (value : Expr)
  | other
  deriving Repr

/-- Result of `_analyze_method`: name, parameter names and body of one
`ast.FunctionDef` (the `ast_node` back-reference of the Python dict is the
same data and is dropped). -/
structure MethodInfo where
  name : String
  args : List String
  body : List Stmt
  deriving Repr

/-- One item of a class body: a method definition (`ast.FunctionDef`) or any
other statement, which `_analyze_component_class` ignores. -/
inductive ClassItem where
  | meth (m : MethodInfo)
  | other
  deriving Repr

/-- An `ast.ClassDef` node: class name and body items in source order. -/
structure ClassDef where
  name : String
  body : List ClassItem
  deriving Repr

/-- Result of `_analyze_component_class`: the `component_info` dict. -/
structure ComponentInfo where
  name : String
  methods : List (String × MethodInfo)
  init_method : Option MethodInfo
  render_method : Option MethodInfo
  initial_state : List (Const × Const)
  deriving Repr

/-- The local-variable scope `self.local_variables`: an insertion-ordered
mapping from render-local variable name to its already-transpiled text. -/
abbrev LEnv := List (String × String)

/-- Mutable state of a `PyReactTranspiler` instance that survives between
calls: the ordered component registry `self.components` and the leftover
`self.local_variables` attribute. -/
structure TState where
  components : List (String × String)
  lenv : LEnv
  deriving Repr

/-- Python dict assignment `d[k] = v` on an insertion-ordered mapping:
update in place if the key is present, append otherwise. -/
def upsert {α β : Type} [BEq α] (l : List (α × β)) (k : α) (v : β) : List (α × β) :=
  match l with
  | [] => [(k, v)]
  | (k2, v2) :: rest => if k2 == k then (k2, v) :: rest else (k2, v2) :: upsert rest k v

/-- Membership test `name in self.local_variables`. -/
def lenvHas (lenv : LEnv) (v : String) : Bool :=
  lenv.any (fun p => p.1 == v)

/-- Python `str()` of a constant, as used in f-string interpolation of dict
keys and subscript keys (strings unquoted, bools capitalized, None as
None). -/
def pyStr : Const → String
  | .s v => v
  | .i n => toString n
  | .b true => "True"
  | .b false => "False"
  | .noneV => "None"

/-- The shared constant-to-JavaScript rule of `_transpile_expression` and
`_ast_to_js_value`: strings are double-quoted, booleans lower-cased, every
other constant stringified verbatim. -/
def constJs : Const → String
  | .s v => "\"" ++ v ++ "\""
  | .i n => toString n
  | .b true => "true"
  | .b false => "false"
  | .noneV => "None"

/-- Test for the characters stripped by `.strip(chr(34) ++ chr(39))` in the
props.get special case: the double-quote and single-quote characters. -/
def isQuoteChar (c : Char) : Bool :=
  c == Char.ofNat 34 || c == Char.ofNat 39

/-- Python `s.strip(quotes)`: remove leading and trailing quote characters. -/
def stripQuotes (s : String) : String :=
  String.mk (((s.data.dropWhile isQuoteChar).reverse.dropWhile isQuoteChar).reverse)

/-- Is this node `self` (an `ast.Name` whose id is the literal "self")? -/
def isSelfName : Expr → Bool
  | .name v => v == "self"
  | _ => false

/-- Is this node the attribute access `self.state`? -/
def isSelfState : Expr → Bool
  | .attrib v a => isSelfName v && a == "state"
  | _ => false

/-- Is this node the attribute access `self.props`? -/
def isSelfProps : Expr → Bool
  | .attrib v a => isSelfName v && a == "props"
  | _ => false

/-- Is this node the attribute access `self.set_state`? -/
def isSelfSetState : Expr → Bool
  | .attrib v a => isSelfName v && a == "set_state"
  | _ => false

/-- Is this node a subscript whose value is `self.state` (the shape test of
`_transpile_binary_operation`, which does not look at the slice)? -/
def isStateSubscript : Expr → Bool
  | .subscript v _ => isSelfState v
  | _ => false

/-- Is this node an `ast.Dict` literal? -/
def isDictLit : Expr → Bool
  | .dictLit _ => true
  | _ => false

/-- The pairs of a dict literal (nil on any other node). -/
def dictPairs : Expr → Pairs
  | .dictLit p => p
  | _ => .nil

/-- Is this node an `ast.Call`? -/
def isCall : Expr → Bool
  | .call _ _ _ => true
  | _ => false

/-- Is this node an `ast.Constant` with a string value? -/
def isStrConst : Expr → Bool
  | .constant (.s _) => true
  | _ => false

/-- The string value of a string constant (empty on any other node). -/
def strConstVal : Expr → String
  | .constant (.s v) => v
  | _ => ""

/-- Is this node an `ast.Name` recorded in the active local-binding scope
(the test of `_transpile_f_string` on formatted values)? -/
def isLocalName (lenv : LEnv) : Expr → Bool
  | .name v => lenvHas lenv v
  | _ => false

/-- The identifier of a name node (empty on any other node). -/
def localName : Expr → String
  | .name v => v
  | _ => ""

/-- Is this node an `ast.Subscript`? -/
def isSubscriptE : Expr → Bool
  | .subscript _ _ => true
  | _ => false

mutual
/-- Embedding of `_ast_to_js_value`: constants, list literals and dict
literals to JavaScript value text, anything else to the null placeholder. -/
def ast_to_js_value : Expr → String
  | .constant c => constJs c
  | .listLit elts => "[" ++ String.intercalate ", " (ast_list_values elts) ++ "]"
  | .dictLit pairs => "\x7b" ++ String.intercalate ", " (ast_pair_values pairs) ++ "\x7d"
  | _ => "null"
/-- Elementwise `_ast_to_js_value` over a list literal's elements. -/
def ast_list_values : Exprs → List String
  | .nil => []
  | .cons a t => ast_to_js_value a :: ast_list_values t
/-- Pairwise `_ast_to_js_value` over a dict literal's pairs. -/
def ast_pair_values : Pairs → List String
  | .nil => []
  | .cons k v t => (ast_to_js_value k ++ ": " ++ ast_to_js_value v) :: ast_pair_values t
end

/-- The Python value stored for one extracted state entry: the constant
itself when the value node is an `ast.Constant`, otherwise the (Python
string) result of `_ast_to_js_value`. -/
def state_val_of (v : Expr) : Const :=
  match v with
  | .constant c => c
  | _ => .s (ast_to_js_value v)

/-- The inner key/value loop of `_extract_initial_state`: each pair whose
key is a constant is stored into the state dict; other keys are skipped. -/
def extract_pairs (st : List (Const × Const)) : Pairs → List (Const × Const)
  | .nil => st
  | .cons k v t =>
      match k with
      | .constant kc => extract_pairs (upsert st kc (state_val_of v)) t
      | _ => extract_pairs st t

/-- One `ast.Assign` statement's contribution to the initial state: for each
target that is exactly `self.state`, a dict-literal right-hand side has its
pairs extracted; any other right-hand side contributes nothing. -/
def extract_from_assign (st0 : List (Const × Const)) (targets : List Expr)
    (value : Expr) : List (Const × Const) :=
  targets.foldl
    (fun st t =>
      if isSelfState t then
        if isDictLit value then extract_pairs st (dictPairs value) else st
      else st)
    st0

/-- Embedding of `_extract_initial_state`: scan the constructor body for
assignments to `self.state` of a dict literal. -/
def extract_initial_state (body : List Stmt) : List (Const × Const) :=
  body.foldl
    (fun st stmt =>
      match stmt with
      | .assign targets value => extract_from_assign st targets value
      | _ => st)
    []

/-- Text of one `key: value` pair of `_dict_to_js_object` (Python string
values get re-quoted, booleans lower-cased, everything else stringified). -/
def state_pair_js (k : Const) (v : Const) : String :=
  match v with
  | .s sv => pyStr k ++ ": \"" ++ sv ++ "\""
  | .b bv => pyStr k ++ ": " ++ (if bv then "true" else "false")
  | .i n => pyStr k ++ ": " ++ toString n
  | .noneV => pyStr k ++ ": None"

/-- Embedding of `_dict_to_js_object`: the state dict as a JavaScript object
literal, preserving insertion order. -/
def dict_to_js_object (d : List (Const × Const)) : String :=
  if d.isEmpty then "\x7b\x7d"
  else "\x7b" ++ String.intercalate ", " (d.map fun p => state_pair_js p.1 p.2) ++ "\x7d"

/-- Embedding of `_transpile_subscript`: only `self.state[‹constant›]`
produces a property access; every other subscript shape yields the null
placeholder. -/
def transpile_subscript : Expr → String
  | .subscript v sl =>
      if isSelfState v then
        match sl with
        | .constant c => "state." ++ pyStr c
        | _ => "null"
      else "null"
  | _ => "null"

/-- The operator joining rule of `_transpile_binary_operation`: the four
arithmetic operators, and bare juxtaposition for any other operator. -/
def binop_join (op : BOp) (l r : String) : String :=
  match op with
  | .add => l ++ " + " ++ r
  | .sub => l ++ " - " ++ r
  | .mult => l ++ " * " ++ r
  | .div => l ++ " / " ++ r
  | .other => l ++ " " ++ r

/-- The subscript override of `_transpile_f_string`: a formatted value that
is an `ast.Subscript` has its text recomputed by `_transpile_subscript`
(for any other node the already-computed text stands). -/
def fstring_sub (e : Expr) (t : String) : String :=
  if isSubscriptE e then transpile_subscript e else t

mutual
/-- Embedding of `_transpile_expression`: the recursive dispatch over
expression node kinds.  Note that `ast.List` has no branch in the Python
dispatch chain and therefore falls to the null placeholder, and that the
reserved set is checked by structural shape exactly as the source does. -/
def transpile_expression (lenv : LEnv) : Expr → String
  | .dictLit pairs =>
      "\x7b" ++ String.intercalate ", " (transpile_pairs lenv pairs) ++ "\x7d"
  | .constant c => constJs c
  | .name id => id
  | .attrib v attr =>
      if isSelfName v && attr == "state" then "state"
      else transpile_expression lenv v ++ "." ++ attr
  | .binop op l r =>
      let left := transpile_expression lenv l
      let right := transpile_expression lenv r
      binop_join op (if isStateSubscript l then transpile_subscript l else left) right
  | .joinedStr parts => "`" ++ String.join (transpile_fparts lenv parts) ++ "`"
  | .call f args _ => transpile_function_call lenv f (transpile_args lenv args)
  | .subscript v sl => transpile_subscript (.subscript v sl)
  | .listLit _ => "null"
  | .other _ => "null"

/-- Embedding of `_transpile_function_call`, taking the callee node and the
already-transpiled positional arguments (the Python method receives the
whole call node and destructures exactly these).  Keyword arguments are
ignored by the source.  The `self.props.get(key, default)` two-argument
shape is special-cased into a logical-or fallback, stripping quote
characters off the transpiled key. -/
def transpile_function_call (lenv : LEnv) (f : Expr) (targs : List String) : String :=
  match f with
  | .name fn => fn ++ "(" ++ String.intercalate ", " targs ++ ")"
  | .attrib v m =>
      let obj := transpile_expression lenv v
      if isSelfProps v && m == "get" && targs.length == 2 then
        "(props." ++ stripQuotes (targs.getD 0 "") ++ " || " ++ targs.getD 1 "" ++ ")"
      else obj ++ "." ++ m ++ "(" ++ String.intercalate ", " targs ++ ")"
  | _ => "null"

/-- Elementwise `_transpile_expression` over positional arguments. -/
def transpile_args (lenv : LEnv) : Exprs → List String
  | .nil => []
  | .cons a t => transpile_expression lenv a :: transpile_args lenv t

/-- Embedding of `_transpile_dict_literal`: each pair as `key: value` text. -/
def transpile_pairs (lenv : LEnv) : Pairs → List String
  | .nil => []
  | .cons k v t =>
      (transpile_expression lenv k ++ ": " ++ transpile_expression lenv v)
        :: transpile_pairs lenv t

/-- Embedding of `_transpile_f_string` over the parts of a joined string:
literal segments pass through verbatim; a formatted value that is a name
found in the local-binding scope is substituted directly, otherwise the
embedded expression is transpiled (with the subscript override applied). -/
def transpile_fparts (lenv : LEnv) : FParts → List String
  | .nil => []
  | .lit s t => s :: transpile_fparts lenv t
  | .fmt e t =>
      ("$\x7b" ++
        (if isLocalName lenv e then localName e
         else fstring_sub e (transpile_expression lenv e)) ++ "\x7d")
        :: transpile_fparts lenv t
end

/-- The fixed registry of builder-function names recognized by
`_transpile_element_call`. -/
def html_elements : List String :=
  ["div", "h1", "h2", "h3", "p", "span", "button", "input_field", "a", "ul",
   "ol", "li", "form", "label", "select", "option", "textarea", "br", "hr", "img"]

/-- Is this callee a bare identifier found in the builder-name registry? -/
def isRegistryName : Expr → Bool
  | .name n => html_elements.contains n
  | _ => false

/-- Embedding of `_transpile_prop_value`: a bound-method reference
`self.‹attr›` becomes the bare attribute name; everything else goes through
the Expression Transpiler. -/
def isSelfAttr : Expr → Bool
  | .attrib v _ => isSelfName v
  | _ => false

/-- The attribute name of an attribute node (empty on any other node). -/
def selfAttrName : Expr → String
  | .attrib _ a => a
  | _ => ""

/-- Embedding of `_transpile_prop_value`. -/
def transpile_prop_value (lenv : LEnv) (v : Expr) : String :=
  if isSelfAttr v then selfAttrName v else transpile_expression lenv v

/-- The event-keyword renaming of `_transpile_element_call`. -/
def rename_event (n : String) : String :=
  if n == "onclick" then "onClick"
  else if n == "onchange" then "onChange"
  else if n == "onsubmit" then "onSubmit"
  else n

/-- Embedding of `_build_props_object`. -/
def build_props_object (props : List (String × String)) : String :=
  if props.isEmpty then "null"
  else "\x7b" ++ String.intercalate ", " (props.map fun p => p.1 ++ ": " ++ p.2) ++ "\x7d"

mutual
/-- Embedding of `_transpile_element_expression`, with the body of
`_transpile_element_call` inlined into the call branch (the Python helper
receives the same call node; inlining keeps the recursion structural).
A call whose callee is a registry name becomes a `React.createElement`
call; a call with any other callee yields the null placeholder; a
non-call node falls through to `_transpile_expression`. -/
def transpile_element_expression (lenv : LEnv) : Expr → String
  | .call (.name en) args kws =>
      if html_elements.contains en then
        let tag := if en == "input_field" then "input" else en
        let children := element_children lenv args
        let props := element_props lenv [] kws
        let props_str := if props.isEmpty then "null" else build_props_object props
        if children.isEmpty then
          "React.createElement(\x27" ++ tag ++ "\x27, " ++ props_str ++ ")"
        else
          "React.createElement(\x27" ++ tag ++ "\x27, " ++ props_str ++ ", [" ++
            String.intercalate ", " children ++ "])"
      else "null"
  | .call _ _ _ => "null"
  | .constant c => transpile_expression lenv (.constant c)
  | .name id => transpile_expression lenv (.name id)
  | .attrib v a => transpile_expression lenv (.attrib v a)
  | .subscript v sl => transpile_expression lenv (.subscript v sl)
  | .binop op l r => transpile_expression lenv (.binop op l r)
  | .joinedStr parts => transpile_expression lenv (.joinedStr parts)
  | .dictLit pairs => transpile_expression lenv (.dictLit pairs)
  | .listLit elts => transpile_expression lenv (.listLit elts)
  | .other k => transpile_expression lenv (.other k)

/-- The positional-children loop of `_transpile_element_call`: string
constants become quoted text children, everything else recurses through
element-expression transpilation. -/
def element_children (lenv : LEnv) : Exprs → List String
  | .nil => []
  | .cons a t =>
      (if isStrConst a then "\"" ++ strConstVal a ++ "\""
       else transpile_element_expression lenv a) :: element_children lenv t

/-- The keyword loop of `_transpile_element_call`: each keyword is renamed
(event keys camel-cased) and its value transpiled as a prop value, stored
into the props dict in order. -/
def element_props (lenv : LEnv) (props : List (String × String)) :
    Kwargs → List (String × String)
  | .nil => props
  | .cons n v t =>
      element_props lenv (upsert props (rename_event n) (transpile_prop_value lenv v)) t
end

/-- Embedding of `_transpile_method_call`: an expression statement that is
`self.set_state(arg, ...)` becomes a merging setState call on the first
argument; anything else (including `self.set_state()` with no argument)
emits nothing. -/
def transpile_method_call (lenv : LEnv) (c : Expr) : String :=
  match c with
  | .call f args _ =>
      if isSelfSetState f then
        match args with
        | .cons a _ =>
            "setState(prevState => (\x7b...prevState, ..." ++
              transpile_expression lenv a ++ "\x7d));"
        | .nil => ""
      else ""
  | _ => ""

/-- Embedding of `_transpile_assignment`: assignments inside non-render
method bodies are skipped. -/
def transpile_assignment : String := ""

/-- Embedding of `_transpile_statement` for one statement of a non-render
method body: expression statements that are calls go through the method-call
rule, plain assignments are dropped, returns become return statements, and
any other statement kind emits empty text. -/
def transpile_statement (lenv : LEnv) : Stmt → String
  | .exprStmt v => if isCall v then transpile_method_call lenv v else ""
  | .assign _ _ => transpile_assignment
  | .ret v =>
      "return " ++
        (match v with
         | some e => transpile_expression lenv e
         | none => "null") ++ ";"
  | .other => ""

/-- Lifecycle methods skipped by `_transpile_method_to_js`. -/
def lifecycle_methods : List String :=
  ["component_did_mount", "component_will_unmount", "should_component_update"]

/-- The statement loop of `_transpile_method_to_js`: keep only statements
that transpile to non-empty text, each indented. -/
def stmt_lines (lenv : LEnv) : List Stmt → List String
  | [] => []
  | s :: rest =>
      (let js := transpile_statement lenv s
       if js == "" then [] else ["    " ++ js]) ++ stmt_lines lenv rest

/-- Embedding of `_transpile_method_to_js`: lifecycle methods produce
nothing; every other method becomes a nested zero-argument arrow function. -/
def transpile_method_to_js (lenv : LEnv) (m : MethodInfo) : Option String :=
  if lifecycle_methods.contains m.name then none
  else
    some (String.intercalate "\n"
      (("const " ++ m.name ++ " = () => \x7b") :: stmt_lines lenv m.body ++ ["  \x7d;"]))

/-- Embedding of `_transpile_render_assignment`: a single-target assignment
to a plain name is transpiled, recorded in the local-binding scope and
emitted as a const declaration; any other shape contributes nothing. -/
def transpile_render_assignment (lenv : LEnv) (targets : List Expr) (value : Expr) :
    Option (String × LEnv) :=
  match targets with
  | [Expr.name var] =>
      let vjs := transpile_expression lenv value
      some ("const " ++ var ++ " = " ++ vjs, upsert lenv var vjs)
  | _ => none

/-- Loop state of `_transpile_render_method`: the collected assignment
texts, the local-binding scope, and the last return statement seen (whose
value may itself be absent for a bare `return`). -/
structure RenderAcc where
  js : List String
  lenv : LEnv
  retv : Option (Option Expr)
  deriving Repr

/-- The statement loop of `_transpile_render_method`: every return
statement overwrites the remembered return; assignments are transpiled and
accumulated; all other statements are ignored. -/
def render_loop (acc : RenderAcc) : List Stmt → RenderAcc
  | [] => acc
  | stmt :: rest =>
      match stmt with
      | .ret v => render_loop ⟨acc.js, acc.lenv, some v⟩ rest
      | .assign targets value =>
          match transpile_render_assignment acc.lenv targets value with
          | some (txt, lenv2) => render_loop ⟨acc.js ++ [txt], lenv2, acc.retv⟩ rest
          | none => render_loop acc rest
      | _ => render_loop acc rest

/-- Embedding of `_transpile_render_method`.  The local-binding scope is
reset to empty at the start; the final scope is returned as the new value
of the transpiler's `local_variables` attribute.  A remembered return is
transpiled through element-expression transpilation (an absent return value
yields null); collected assignments wrap the body in an IIFE; with no
return statement at all the result is the null text. -/
def transpile_render_method (body : List Stmt) : String × LEnv :=
  let acc := render_loop ⟨[], [], none⟩ body
  match acc.retv with
  | some v =>
      let rexpr :=
        match v with
        | some e => transpile_element_expression acc.lenv e
        | none => "null"
      if acc.js.isEmpty then (rexpr, acc.lenv)
      else
        ("(() => \x7b " ++ String.intercalate "; " acc.js ++ "; return " ++
           rexpr ++ "; \x7d)()", acc.lenv)
  | none => ("null", acc.lenv)

/-- The analysis step of `_analyze_component_class` for one class-body item:
methods are recorded in declaration order; the constructor additionally has
its initial state extracted; a method named render is recorded as the
render method. -/
def analyze_step (info : ComponentInfo) : ClassItem → ComponentInfo
  | .meth m =>
      let info2 : ComponentInfo :=
        ⟨info.name, upsert info.methods m.name m, info.init_method,
          info.render_method, info.initial_state⟩
      if m.name == "__init__" then
        ⟨info2.name, info2.methods, some m, info2.render_method,
          extract_initial_state m.body⟩
      else if m.name == "render" then
        ⟨info2.name, info2.methods, info2.init_method, some m, info2.initial_state⟩
      else info2
  | .other => info

/-- Embedding of `_analyze_component_class`. -/
def analyze_component_class (cd : ClassDef) : ComponentInfo :=
  cd.body.foldl analyze_step ⟨cd.name, [], none, none, []⟩

/-- The handler-method loop of `_generate_js_component`: every method other
than the constructor and render, in declaration order, contributes its
transpiled text plus a blank separator (lifecycle methods contribute
nothing). -/
def method_section (lenv : LEnv) : List (String × MethodInfo) → List String
  | [] => []
  | (n, m) :: rest =>
      (if n == "__init__" || n == "render" then []
       else
         match transpile_method_to_js lenv m with
         | some t => ["  " ++ t, ""]
         | none => []) ++ method_section lenv rest

/-- The render part of `_generate_js_component`: the transpiled render
method, or an unconditional null return when the descriptor has no render
method. -/
def render_section (lenv : LEnv) : Option MethodInfo → List String × LEnv
  | some rm =>
      let r := transpile_render_method rm.body
      (["  return " ++ r.1 ++ ";"], r.2)
  | none => (["  return null;"], lenv)

/-- The `js_lines` list built by `_generate_js_component`: function header,
optional state-hook declaration (only when the initial state is non-empty),
handler-method section, render section, closing brace.  Also returns the
transpiler's local-variable scope after the call. -/
def componentLines (lenv : LEnv) (info : ComponentInfo) : List String × LEnv :=
  let hook : List String :=
    if info.initial_state.isEmpty then []
    else
      ["  const [state, setState] = React.useState(" ++
         dict_to_js_object info.initial_state ++ ");", ""]
  let ms := method_section lenv info.methods
  let rs := render_section lenv info.render_method
  (("function " ++ info.name ++ "(props) \x7b") :: (hook ++ ms ++ rs.1 ++ ["\x7d"]), rs.2)

/-- Embedding of `_generate_js_component`: the joined component text. -/
def generate_js_component (lenv : LEnv) (info : ComponentInfo) : String × LEnv :=
  let r := componentLines lenv info
  (String.intercalate "\n" r.1, r.2)

/-- Embedding of `transpile_component`.  The class definition is located in
the supplied tree by name (the `ast.walk` search); a missing class raises,
embedded as an error result that leaves the transpiler state untouched; on
success the emitted text is stored in the component registry under the
component's name. -/
def transpile_component (st : TState) (tree : List ClassDef) (cname : String) :
    Except String String × TState :=
  match tree.find? (fun c => c.name == cname) with
  | none => (.error ("Could not find class definition for " ++ cname), st)
  | some cd =>
      let info := analyze_component_class cd
      let r := generate_js_component st.lenv info
      (.ok r.1, ⟨upsert st.components cname r.1, r.2⟩)

/-- Embedding of `generate_complete_js`: header comment, blank line, then
every registered component's text followed by a blank line, in registry
order. -/
def generate_complete_js (components : List (String × String)) : String :=
  if components.isEmpty then "// No components to transpile"
  else
    String.intercalate "\n"
      ("// PyReact - Transpiled Components" :: "" ::
        (components.map (fun p => [p.2, ""])).flatten)

/-- Is a statement a return statement? -/
def isRetStmt : Stmt → Bool
  | .ret _ => true
  | _ => false

/-- The return statement remembered after scanning a statement list,
starting from a previously remembered one: the loop-invariant companion of
`render_loop`. -/
def lastRet (r : Option (Option Expr)) : List Stmt → Option (Option Expr)
  | [] => r
  | s :: rest =>
      lastRet (match s with | .ret v => some v | _ => r) rest

/-- Does a key occur at a string-key boundary: true when the string neither
starts nor ends with a quote character. -/
def noBoundaryQuote (k : String) : Bool :=
  (k.data.head?.all fun c => !isQuoteChar c) &&
    (k.data.getLast?.all fun c => !isQuoteChar c)

/-- The attribute chain `self.props.get`, as callee of the props-fallback
special case. -/
def propsGetCallee : Expr :=
  .attrib (.attrib (.name "self") "props") "get"

/-- The attribute access `self.state`, the extraction target of
`_extract_initial_state`. -/
def selfStateTarget : Expr :=
  .attrib (.name "self") "state"

/-- A minimal class definition with the given name and no body, used to
exercise registry ordering on concrete inputs. -/
def emptyClass (n : String) : ClassDef := ⟨n, []⟩

/-- Transpiler state after transpiling an empty class named Zeta from a
fresh transpiler. -/
def c8_state1 : TState :=
  (transpile_component ⟨[], []⟩ [emptyClass "Zeta"] "Zeta").2

/-- Transpiler state after additionally transpiling an empty class named
Alpha (alphabetically earlier, transpiled later). -/
def c8_state2 : TState :=
  (transpile_component c8_state1 [emptyClass "Alpha"] "Alpha").2

/-!
Helper lemmas.  The family below establishes that the text produced by the
Expression Transpiler does not depend on the carried local-variable scope:
the only read of the scope is the direct-substitution branch of the
f-string rule, whose two branches produce identical text for a name node.
-/

/-- The f-string direct-substitution branch produces the same text as the
ordinary transpilation branch, whatever the scope contains. -/
theorem fvalue_if_irrel (lenv : LEnv) (e : Expr) :
    (if isLocalName lenv e then localName e
     else fstring_sub e (transpile_expression [] e))
      = fstring_sub e (transpile_expression [] e) := by
  cases e <;>
    simp [isLocalName, localName, fstring_sub, isSubscriptE, transpile_expression]

mutual
/-- Expression transpilation is independent of the local-variable scope. -/
theorem transpile_expression_scope_irrel (lenv : LEnv) :
    (e : Expr) → transpile_expression lenv e = transpile_expression [] e
  | .dictLit pairs => by
      simp only [transpile_expression]
      rw [transpile_pairs_scope_irrel lenv pairs]
  | .constant _ => rfl
  | .name _ => rfl
  | .attrib v attr => by
      simp only [transpile_expression]
      rw [transpile_expression_scope_irrel lenv v]
  | .binop op l r => by
      simp only [transpile_expression]
      rw [transpile_expression_scope_irrel lenv l, transpile_expression_scope_irrel lenv r]
  | .joinedStr parts => by
      simp only [transpile_expression]
      rw [transpile_fparts_scope_irrel lenv parts]
  | .call f args kws => by
      simp only [transpile_expression]
      rw [transpile_args_scope_irrel lenv args, transpile_function_call_scope_irrel lenv f]
  | .subscript _ _ => rfl
  | .listLit _ => rfl
  | .other _ => rfl

/-- Function-call transpilation is independent of the local-variable scope. -/
theorem transpile_function_call_scope_irrel (lenv : LEnv) :
    (f : Expr) → ∀ targs,
      transpile_function_call lenv f targs = transpile_function_call [] f targs
  | .name _ => fun _ => rfl
  | .attrib v _ => fun _ => by
      simp only [transpile_function_call]
      rw [transpile_expression_scope_irrel lenv v]
  | .constant _ => fun _ => rfl
  | .subscript _ _ => fun _ => rfl
  | .binop _ _ _ => fun _ => rfl
  | .joinedStr _ => fun _ => rfl
  | .call _ _ _ => fun _ => rfl
  | .dictLit _ => fun _ => rfl
  | .listLit _ => fun _ => rfl
  | .other _ => fun _ => rfl

/-- Argument-list transpilation is independent of the local-variable scope. -/
theorem transpile_args_scope_irrel (lenv : LEnv) :
    (es : Exprs) → transpile_args lenv es = transpile_args [] es
  | .nil => rfl
  | .cons a t => by
      simp only [transpile_args]
      rw [transpile_expression_scope_irrel lenv a, transpile_args_scope_irrel lenv t]

/-- Dict-pair transpilation is independent of the local-variable scope. -/
theorem transpile_pairs_scope_irrel (lenv : LEnv) :
    (ps : Pairs) → transpile_pairs lenv ps = transpile_pairs [] ps
  | .nil => rfl
  | .cons k v t => by
      simp only [transpile_pairs]
      rw [transpile_expression_scope_irrel lenv k, transpile_expression_scope_irrel lenv v,
        transpile_pairs_scope_irrel lenv t]

/-- F-string part transpilation is independent of the local-variable scope. -/
theorem transpile_fparts_scope_irrel (lenv : LEnv) :
    (ps : FParts) → transpile_fparts lenv ps = transpile_fparts [] ps
  | .nil => rfl
  | .lit _ t => by
      simp only [transpile_fparts]
      rw [transpile_fparts_scope_irrel lenv t]
  | .fmt e t => by
      simp only [transpile_fparts]
      rw [transpile_fparts_scope_irrel lenv t, transpile_expression_scope_irrel lenv e,
        fvalue_if_irrel lenv e, fvalue_if_irrel [] e]
end

/-- Method-call statement transpilation is independent of the scope. -/
theorem transpile_method_call_scope_irrel (lenv : LEnv) (c : Expr) :
    transpile_method_call lenv c = transpile_method_call [] c := by
  cases c
  case call f args kws =>
    cases args with
    | nil => rfl
    | cons a t =>
        simp only [transpile_method_call]
        rw [transpile_expression_scope_irrel lenv a]
  all_goals rfl

/-- Statement transpilation is independent of the scope. -/
theorem transpile_statement_scope_irrel (lenv : LEnv) (s : Stmt) :
    transpile_statement lenv s = transpile_statement [] s := by
  cases s with
  | exprStmt v =>
      simp only [transpile_statement]
      rw [transpile_method_call_scope_irrel lenv v]
  | assign t v => rfl
  | ret v =>
      cases v with
      | some e =>
          simp only [transpile_statement]
          rw [transpile_expression_scope_irrel lenv e]
      | none => rfl
  | other => rfl

/-- Method-body line emission is independent of the scope. -/
theorem stmt_lines_scope_irrel (lenv : LEnv) (l : List Stmt) :
    stmt_lines lenv l = stmt_lines [] l := by
  induction l with
  | nil => rfl
  | cons s rest ih =>
      simp only [stmt_lines]
      rw [transpile_statement_scope_irrel lenv s, ih]

/-- Handler-method emission is independent of the scope. -/
theorem transpile_method_to_js_scope_irrel (lenv : LEnv) (m : MethodInfo) :
    transpile_method_to_js lenv m = transpile_method_to_js [] m := by
  simp only [transpile_method_to_js]
  rw [stmt_lines_scope_irrel lenv m.body]

/-- The handler section of a component is independent of the scope. -/
theorem method_section_scope_irrel (lenv : LEnv) (ms : List (String × MethodInfo)) :
    method_section lenv ms = method_section [] ms := by
  induction ms with
  | nil => rfl
  | cons p rest ih =>
      obtain ⟨n, m⟩ := p
      simp only [method_section]
      rw [transpile_method_to_js_scope_irrel lenv m, ih]

/-- The render section's text is independent of the incoming scope (the
render method resets the scope before using it). -/
theorem render_section_text_scope_irrel (lenv : LEnv) (o : Option MethodInfo) :
    (render_section lenv o).1 = (render_section [] o).1 := by
  cases o <;> rfl

/-- The emitted line list of a component is independent of the incoming
scope. -/
theorem componentLines_text_scope_irrel (lenv : LEnv) (info : ComponentInfo) :
    (componentLines lenv info).1 = (componentLines [] info).1 := by
  simp only [componentLines]
  rw [method_section_scope_irrel lenv info.methods,
    render_section_text_scope_irrel lenv info.render_method]

/-- The emitted text of a component is independent of the incoming scope. -/
theorem generate_js_component_text_scope_irrel (lenv : LEnv) (info : ComponentInfo) :
    (generate_js_component lenv info).1 = (generate_js_component [] info).1 := by
  simp only [generate_js_component]
  rw [componentLines_text_scope_irrel lenv info]

/-- Updating a key absent from the registry appends the new entry. -/
theorem upsert_of_lookup_none {l : List (String × String)} {k : String} (v : String)
    (h : l.lookup k = none) : upsert l k v = l ++ [(k, v)] := by
  induction l with
  | nil => rfl
  | cons p rest ih =>
      obtain ⟨k2, v2⟩ := p
      simp only [List.lookup] at h
      cases hk : (k == k2) with
      | true => rw [hk] at h; simp at h
      | false =>
          rw [hk] at h
          have hk2 : (k2 == k) = false := by
            rw [beq_eq_false_iff_ne] at hk ⊢
            exact fun e => hk e.symm
          simp only [upsert, hk2, if_false, ih h]
          simp

/-- Updating the registry preserves the key sequence, or extends it with the
new key at the end. -/
theorem upsert_keys (l : List (String × String)) (k v : String) :
    (upsert l k v).map Prod.fst = l.map Prod.fst
      ∨ (upsert l k v).map Prod.fst = l.map Prod.fst ++ [k] := by
  induction l with
  | nil => right; rfl
  | cons p rest ih =>
      obtain ⟨k2, v2⟩ := p
      by_cases hk : (k2 == k) = true
      · left; simp [upsert, hk]
      · rw [Bool.not_eq_true] at hk
        rcases ih with h | h
        · left; simp [upsert, hk, h]
        · right; simp [upsert, hk, h]

/-- Loop invariant of the render-body scan: the collected statements and the
scope come from the non-return statements only, and the remembered return is
the last return statement of the body. -/
theorem render_loop_decomp (body : List Stmt) : ∀ (js : List String) (lenv : LEnv)
    (r : Option (Option Expr)),
    render_loop ⟨js, lenv, r⟩ body
      = ⟨(render_loop ⟨js, lenv, none⟩ (body.filter (fun s => !isRetStmt s))).js,
         (render_loop ⟨js, lenv, none⟩ (body.filter (fun s => !isRetStmt s))).lenv,
         lastRet r body⟩ := by
  induction body with
  | nil => intro js lenv r; rfl
  | cons s rest ih =>
      intro js lenv r
      cases s with
      | ret v => exact ih js lenv (some v)
      | assign targets value =>
          have hf : (Stmt.assign targets value :: rest).filter (fun s => !isRetStmt s)
              = Stmt.assign targets value :: rest.filter (fun s => !isRetStmt s) := rfl
          rw [hf]
          cases hra : transpile_render_assignment lenv targets value with
          | some pr =>
              obtain ⟨txt, lenv2⟩ := pr
              have h1 : render_loop ⟨js, lenv, r⟩ (Stmt.assign targets value :: rest)
                  = render_loop ⟨js ++ [txt], lenv2, r⟩ rest := by
                simp only [render_loop, hra]
              have h2 : render_loop ⟨js, lenv, none⟩
                    (Stmt.assign targets value :: rest.filter (fun s => !isRetStmt s))
                  = render_loop ⟨js ++ [txt], lenv2, none⟩
                      (rest.filter (fun s => !isRetStmt s)) := by
                simp only [render_loop, hra]
              rw [h1, h2]
              exact ih (js ++ [txt]) lenv2 r
          | none =>
              have h1 : render_loop ⟨js, lenv, r⟩ (Stmt.assign targets value :: rest)
                  = render_loop ⟨js, lenv, r⟩ rest := by
                simp only [render_loop, hra]
              have h2 : render_loop ⟨js, lenv, none⟩
                    (Stmt.assign targets value :: rest.filter (fun s => !isRetStmt s))
                  = render_loop ⟨js, lenv, none⟩ (rest.filter (fun s => !isRetStmt s)) := by
                simp only [render_loop, hra]
              rw [h1, h2]
              exact ih js lenv r
      | exprStmt v => exact ih js lenv r
      | other => exact ih js lenv r

/-- The remembered return after scanning a concatenation. -/
theorem lastRet_append (l1 l2 : List Stmt) (r : Option (Option Expr)) :
    lastRet r (l1 ++ l2) = lastRet (lastRet r l1) l2 := by
  induction l1 generalizing r with
  | nil => rfl
  | cons s rest ih => cases s <;> simp [lastRet, ih]

/-- Scanning a return-free statement list does not change the remembered
return. -/
theorem lastRet_no_ret (l : List Stmt) (r : Option (Option Expr))
    (h : ∀ s ∈ l, isRetStmt s = false) : lastRet r l = r := by
  induction l generalizing r with
  | nil => rfl
  | cons s rest ih =>
      have hs := h s (by simp)
      have hrest : ∀ x ∈ rest, isRetStmt x = false := fun x hx => h x (by simp [hx])
      cases s with
      | ret v => simp [isRetStmt] at hs
      | assign t v => simp only [lastRet]; exact ih r hrest
      | exprStmt v => simp only [lastRet]; exact ih r hrest
      | other => simp only [lastRet]; exact ih r hrest

/-- Dropping while a predicate fails at the head leaves the list intact. -/
theorem dropWhile_head_false {p : Char → Bool} {m : List Char}
    (h : m.head?.all (fun c => !p c) = true) : m.dropWhile p = m := by
  cases m with
  | nil => rfl
  | cons a t =>
      have : p a = false := by simpa using h
      simp [List.dropWhile_cons, this]

/-- Stripping quote characters from a double-quoted key recovers the key,
provided the key neither starts nor ends with a quote character. -/
theorem strip_list (l : List Char)
    (hh : l.head?.all (fun c => !isQuoteChar c) = true)
    (hl : l.getLast?.all (fun c => !isQuoteChar c) = true) :
    (((Char.ofNat 34 :: (l ++ [Char.ofNat 34])).dropWhile
        isQuoteChar).reverse.dropWhile isQuoteChar).reverse = l := by
  have hq : isQuoteChar (Char.ofNat 34) = true := by decide
  rw [List.dropWhile_cons, if_pos hq]
  cases l with
  | nil => simp [List.dropWhile_cons, hq]
  | cons c cs =>
      have hc : isQuoteChar c = false := by simpa using hh
      rw [List.cons_append, List.dropWhile_cons, if_neg (by simp [hc])]
      have hrev : (c :: (cs ++ [Char.ofNat 34])).reverse
          = Char.ofNat 34 :: (cs.reverse ++ [c]) := by
        simp
      rw [hrev, List.dropWhile_cons, if_pos hq]
      have hX : (cs.reverse ++ [c]).dropWhile isQuoteChar = cs.reverse ++ [c] := by
        apply dropWhile_head_false
        cases hcs : cs.reverse with
        | nil => simp [hcs, hc]
        | cons d ds =>
            have hd : (c :: cs).getLast? = some d := by
              rw [← List.head?_reverse]
              simp [hcs]
            rw [hd] at hl
            simpa [hcs] using hl
      rw [hX]
      simp

/-- String form of the quote-stripping recovery property. -/
theorem stripQuotes_wrap (k : String) (h : noBoundaryQuote k = true) :
    stripQuotes ("\"" ++ k ++ "\"") = k := by
  obtain ⟨hh, hl⟩ := by simpa [noBoundaryQuote, Bool.and_eq_true] using h
  have hdq : ("\"" : String).data = [Char.ofNat 34] := by decide
  have hdata : ("\"" ++ k ++ "\"").data = Char.ofNat 34 :: (k.data ++ [Char.ofNat 34]) := by
    simp [String.data_append, hdq]
  rw [stripQuotes, hdata, strip_list k.data hh hl]

/-!
Claim theorems.
-/

/-- C3: if no class declaration with the expected component name exists in
the supplied tree, the transpile call fails with the declaration-not-found
condition, and the transpiler state — in particular the shared aggregation
registry — is left exactly as it was before the call. -/
theorem c3_declaration_not_found (st : TState) (tree : List ClassDef) (n : String)
    (h : ∀ cd ∈ tree, cd.name ≠ n) :
    transpile_component st tree n
      = (.error ("Could not find class definition for " ++ n), st) := by
  have hf : tree.find? (fun c => c.name == n) = none := by
    rw [List.find?_eq_none]
    intro cd hcd
    simpa using h cd hcd
  simp [transpile_component, hf]

/-- C3 witness: a transpile call for Counter on an empty tree fails with the
declaration-not-found condition and leaves the fresh state unchanged. -/
theorem c3_witness :
    transpile_component ⟨[], []⟩ ([] : List ClassDef) "Counter"
      = (.error ("Could not find class definition for " ++ "Counter"), ⟨[], []⟩) :=
  c3_declaration_not_found ⟨[], []⟩ [] "Counter" (by simp)

/-- C4: an expression node of an unrecognized kind transpiles to the null
literal (and, the functions being total, does not raise); a statement of an
unsupported shape is dropped as empty text; and the transpile call for any
class found in the tree still succeeds with an ok result. -/
theorem c4_graceful_degradation :
    (∀ (lenv : LEnv) (k : String), transpile_expression lenv (.other k) = "null")
  ∧ (∀ lenv : LEnv, transpile_statement lenv .other = "")
  ∧ (∀ (st : TState) (cd : ClassDef),
        (transpile_component st [cd] cd.name).1
          = .ok (generate_js_component st.lenv (analyze_component_class cd)).1) := by
  refine ⟨fun _ _ => rfl, fun _ => rfl, fun st cd => ?_⟩
  have hf : List.find? (fun c => c.name == cd.name) [cd] = some cd := by
    simp [List.find?]
  simp [transpile_component, hf]

/-- C5: a constructor state mapping of count to zero extracts exactly that
one entry; its hook initializer object has exactly that key and value; a
state assignment with a non-dict-literal right-hand side contributes
nothing to the extracted state; and an empty initial state suppresses the
state-hook declaration entirely (the emitted lines are just header, handler
methods, render section and closing brace). -/
theorem c5_initial_state_extraction :
    (extract_initial_state
        [Stmt.assign [selfStateTarget]
          (.dictLit (.cons (.constant (.s "count")) (.constant (.i 0)) .nil))]
      = [(Const.s "count", Const.i 0)])
  ∧ (dict_to_js_object [(Const.s "count", Const.i 0)] = "\x7bcount: 0\x7d")
  ∧ (∀ (pre : List Stmt) (rhs : Expr), isDictLit rhs = false →
        extract_initial_state (pre ++ [Stmt.assign [selfStateTarget] rhs])
          = extract_initial_state pre)
  ∧ (∀ (lenv : LEnv) (info : ComponentInfo), info.initial_state = [] →
        (componentLines lenv info).1
          = ("function " ++ info.name ++ "(props) \x7b")
              :: (method_section lenv info.methods
                  ++ (render_section lenv info.render_method).1 ++ ["\x7d"])) := by
  refine ⟨rfl, rfl, ?_, ?_⟩
  · intro pre rhs h
    rw [extract_initial_state, extract_initial_state, List.foldl_append]
    simp [extract_from_assign, selfStateTarget, isSelfState, isSelfName, h]
  · intro lenv info h
    simp [componentLines, h]

/-- C5 witness: a constructor assigning a call result to the state slot
extracts nothing, and a descriptor with empty initial state emits no
state-hook line. -/
theorem c5_witness :
    (extract_initial_state
        ([] ++ [Stmt.assign [selfStateTarget] (.call (.name "make_state") .nil .nil)])
      = extract_initial_state [])
  ∧ (componentLines [] ⟨"Widget", [], none, none, []⟩).1
      = ("function " ++ "Widget" ++ "(props) \x7b")
          :: (method_section [] [] ++ (render_section [] none).1 ++ ["\x7d"]) :=
  ⟨c5_initial_state_extraction.2.2.1 [] (.call (.name "make_state") .nil .nil) rfl,
   c5_initial_state_extraction.2.2.2 [] ⟨"Widget", [], none, none, []⟩ rfl⟩

/-- C7: a component descriptor with no render method emits a function whose
body ends in an unconditional null return, and a transpile call on any
class found in the tree (in particular one with no render method) succeeds
with an ok result rather than a declaration-not-found condition. -/
theorem c7_missing_render :
    (∀ (lenv : LEnv) (info : ComponentInfo), info.render_method = none →
        (componentLines lenv info).1
          = ("function " ++ info.name ++ "(props) \x7b")
              :: ((if info.initial_state.isEmpty then []
                   else ["  const [state, setState] = React.useState("
                          ++ dict_to_js_object info.initial_state ++ ");", ""])
                  ++ method_section lenv info.methods ++ ["  return null;", "\x7d"]))
  ∧ (∀ (st : TState) (cd : ClassDef),
        (transpile_component st [cd] cd.name).1
          = .ok (generate_js_component st.lenv (analyze_component_class cd)).1) := by
  constructor
  · intro lenv info h
    simp [componentLines, render_section, h]
  · intro st cd
    have hf : List.find? (fun c => c.name == cd.name) [cd] = some cd := by
      simp [List.find?]
    simp [transpile_component, hf]

/-- C7 witness: the empty class Widget2 has no render method; its emitted
lines end in a null return and its transpile call returns an ok result. -/
theorem c7_witness :
    (componentLines [] ⟨"Widget2", [], none, none, []⟩).1
      = ["function Widget2(props) \x7b", "  return null;", "\x7d"]
  ∧ (transpile_component ⟨[], []⟩ [emptyClass "Widget2"] (emptyClass "Widget2").name).1
      = .ok (generate_js_component (TState.mk [] []).lenv
          (analyze_component_class (emptyClass "Widget2"))).1 :=
  ⟨by simpa using c7_missing_render.1 [] ⟨"Widget2", [], none, none, []⟩ rfl,
   c7_missing_render.2 ⟨[], []⟩ (emptyClass "Widget2")⟩

/-- C1 counterexample: a call in element position whose callee is the
non-registry bare identifier foo emits the null placeholder, not the
ordinary call transpilation foo(). -/
theorem c1_counterexample :
    (transpile_element_expression [] (.call (.name "foo") .nil .nil) = "null")
  ∧ (transpile_expression [] (.call (.name "foo") .nil .nil) = "foo()")
  ∧ (("null" : String) ≠ "foo()") :=
  ⟨rfl, rfl, by decide⟩

/-- C1 (amended): a call expression transpiled in element position (at the
render return or as a positional child of a builder call) whose callee is
not a bare identifier in the builder-name registry emits the null
placeholder, not the ordinary expression/call transpilation. -/
theorem c1_nonregistry_null (lenv : LEnv) (f : Expr) (args : Exprs) (kws : Kwargs)
    (h : isRegistryName f = false) :
    transpile_element_expression lenv (.call f args kws) = "null"
    ∧ element_children lenv (.cons (.call f args kws) .nil) = ["null"] := by
  have h1 : transpile_element_expression lenv (.call f args kws) = "null" := by
    cases f
    case name en =>
      have hc : html_elements.contains en = false := h
      have hm : ¬ en ∈ html_elements := by simpa using hc
      simp [transpile_element_expression, hm]
    all_goals rfl
  refine ⟨h1, ?_⟩
  simp [element_children, isStrConst, h1]

/-- C1 witness: the non-registry call custom_header() in element position
and in child position emits the null placeholder. -/
theorem c1_witness :
    transpile_element_expression [] (.call (.name "custom_header") .nil .nil) = "null"
    ∧ element_children [] (.cons (.call (.name "custom_header") .nil .nil) .nil)
        = ["null"] :=
  c1_nonregistry_null [] (.name "custom_header") .nil .nil (by decide)

/-- C2 counterexample: the emitted state-update statement calls setState
with a prevState lambda, not update with a prev lambda, and the emitted
hook line binds the pair to state and setState, not to state and update. -/
theorem c2_counterexample :
    (transpile_statement []
        (.exprStmt (.call (.attrib (.name "self") "set_state")
          (.cons (.dictLit (.cons (.constant (.s "count")) (.constant (.i 0)) .nil)) .nil)
          .nil))
      = "setState(prevState => (\x7b...prevState, ...\x7b\"count\": 0\x7d\x7d));")
  ∧ (("setState(prevState => (\x7b...prevState, ...\x7b\"count\": 0\x7d\x7d));" : String)
      ≠ "update(prev => (\x7b...prev, ...\x7b\"count\": 0\x7d\x7d));")
  ∧ ((componentLines [] ⟨"Counter", [], none, none, [(Const.s "count", Const.i 0)]⟩).1[1]?
      = some "  const [state, setState] = React.useState(\x7bcount: 0\x7d);")
  ∧ (("  const [state, setState] = React.useState(\x7bcount: 0\x7d);" : String)
      ≠ "  const [state, update] = React.useState(\x7bcount: 0\x7d);") :=
  ⟨rfl, by decide, rfl, by decide⟩

/-- C2 (amended): when the initial-state mapping is non-empty the second
emitted line binds the state-hook pair to the names state and setState; and
an expression-statement calling the instance's update-state method with one
mapping-literal argument emits a setState call whose lambda spreads the
previous state before the transpiled mapping, merging rather than
replacing. -/
theorem c2_state_update :
    (∀ (lenv : LEnv) (info : ComponentInfo), info.initial_state ≠ [] →
        (componentLines lenv info).1[1]?
          = some ("  const [state, setState] = React.useState("
              ++ dict_to_js_object info.initial_state ++ ");"))
  ∧ (∀ (lenv : LEnv) (d : Pairs) (kws : Kwargs),
        transpile_statement lenv
            (.exprStmt (.call (.attrib (.name "self") "set_state")
              (.cons (.dictLit d) .nil) kws))
          = "setState(prevState => (\x7b...prevState, ..."
              ++ transpile_expression lenv (.dictLit d) ++ "\x7d));") := by
  constructor
  · intro lenv info h
    have he : info.initial_state.isEmpty = false := by
      cases hs : info.initial_state with
      | nil => exact absurd hs h
      | cons p rest => rfl
    simp [componentLines, he]
  · intro lenv d kws
    rfl

/-- C2 witness: the amended statements at the count-to-zero mapping. -/
theorem c2_witness :
    ((componentLines [] ⟨"Counter", [], none, none, [(Const.s "count", Const.i 0)]⟩).1[1]?
      = some ("  const [state, setState] = React.useState("
          ++ dict_to_js_object [(Const.s "count", Const.i 0)] ++ ");"))
  ∧ (transpile_statement []
        (.exprStmt (.call (.attrib (.name "self") "set_state")
          (.cons (.dictLit (.cons (.constant (.s "count")) (.constant (.i 0)) .nil)) .nil)
          .nil))
      = "setState(prevState => (\x7b...prevState, ..."
          ++ transpile_expression []
              (.dictLit (.cons (.constant (.s "count")) (.constant (.i 0)) .nil))
          ++ "\x7d));") :=
  ⟨c2_state_update.1 [] ⟨"Counter", [], none, none, [(Const.s "count", Const.i 0)]⟩
      (by simp),
   c2_state_update.2 [] (.cons (.constant (.s "count")) (.constant (.i 0)) .nil) .nil⟩

/-- C6 counterexample: a props.get call whose literal string key ends in a
quote character has that character stripped from the emitted property name,
so the output differs from the claimed props.‹key› form. -/
theorem c6_counterexample :
    (transpile_expression [] (.call propsGetCallee
        (.cons (.constant (.s "x\x27")) (.cons (.constant (.i 1)) .nil)) .nil)
      = "(props.x || 1)")
  ∧ (("(props.x || 1)" : String) ≠ "(props.x\x27 || 1)") :=
  ⟨by decide, by decide⟩

/-- C6 (amended): a props.get call with exactly two arguments and a literal
string key emits the logical-or fallback on the key with leading and
trailing quote characters stripped; for every key that neither starts nor
ends with a quote character this is exactly (props.‹key› || ‹default›); in
particular the name/state-subscript instance emits
(props.name || state.name). -/
theorem c6_props_get :
    (∀ (lenv : LEnv) (k : String) (d : Expr), noBoundaryQuote k = true →
        transpile_expression lenv (.call propsGetCallee
            (.cons (.constant (.s k)) (.cons d .nil)) .nil)
          = "(props." ++ k ++ " || " ++ transpile_expression lenv d ++ ")")
  ∧ (transpile_expression [] (.call propsGetCallee
        (.cons (.constant (.s "name"))
          (.cons (.subscript selfStateTarget (.constant (.s "name"))) .nil)) .nil)
      = "(props.name || state.name)") := by
  constructor
  · intro lenv k d h
    have h1 : transpile_expression lenv (.call propsGetCallee
        (.cons (.constant (.s k)) (.cons d .nil)) .nil)
        = "(props." ++ stripQuotes ("\"" ++ k ++ "\"") ++ " || "
            ++ transpile_expression lenv d ++ ")" := rfl
    rw [h1, stripQuotes_wrap k h]
  · decide

/-- C6 witness: the amended rule at the quote-free key title. -/
theorem c6_witness :
    transpile_expression [] (.call propsGetCallee
        (.cons (.constant (.s "title")) (.cons (.constant (.s "Untitled")) .nil)) .nil)
      = "(props." ++ "title" ++ " || "
          ++ transpile_expression [] (.constant (.s "Untitled")) ++ ")" :=
  c6_props_get.1 [] "title" (.constant (.s "Untitled")) (by decide)

/-- C8: a successful transpile call appends a new component at the end of
the registry (and never reorders existing keys, at most appending the new
one), and the aggregated module text of a concrete two-component run lists
the functions in first-transpiled order (Zeta before the alphabetically
earlier Alpha), separated by blank lines and preceded by the header
comment. -/
theorem c8_registry_order :
    (∀ (st : TState) (tree : List ClassDef) (n js : String) (st2 : TState),
        transpile_component st tree n = (.ok js, st2) →
          (st.components.lookup n = none →
             st2.components = st.components ++ [(n, js)])
          ∧ (st2.components.map Prod.fst = st.components.map Prod.fst
             ∨ st2.components.map Prod.fst = st.components.map Prod.fst ++ [n]))
  ∧ generate_complete_js c8_state2.components
      = "// PyReact - Transpiled Components\n\nfunction Zeta(props) \x7b\n  return null;\n\x7d\n\nfunction Alpha(props) \x7b\n  return null;\n\x7d\n" := by
  constructor
  · intro st tree n js st2 h
    cases hf : tree.find? (fun c => c.name == n) with
    | none =>
        simp only [transpile_component, hf] at h
        exact absurd h (by simp)
    | some cd =>
        simp only [transpile_component, hf] at h
        rw [Prod.mk.injEq] at h
        obtain ⟨h1, h2⟩ := h
        replace h1 : (generate_js_component st.lenv (analyze_component_class cd)).1 = js := by
          simpa using h1
        subst h2
        constructor
        · intro hl
          show upsert st.components n
              (generate_js_component st.lenv (analyze_component_class cd)).1
            = st.components ++ [(n, js)]
          rw [h1]
          exact upsert_of_lookup_none js hl
        · show (upsert st.components n
              (generate_js_component st.lenv (analyze_component_class cd)).1).map Prod.fst
            = st.components.map Prod.fst
            ∨ _ = st.components.map Prod.fst ++ [n]
          rw [h1]
          exact upsert_keys st.components n js
  · rfl

/-- C8 witness: the first transpile call on a fresh transpiler appends the
Zeta entry to the empty registry. -/
theorem c8_witness :
    c8_state1.components
      = [] ++ [("Zeta", "function Zeta(props) \x7b\n  return null;\n\x7d")] :=
  (c8_registry_order.1 ⟨[], []⟩ [emptyClass "Zeta"] "Zeta"
      "function Zeta(props) \x7b\n  return null;\n\x7d" c8_state1 rfl).1 rfl

/-- C9: transpilation output is deterministic: the emitted text of a
transpile call depends only on the supplied tree and the component name,
not on the transpiler's mutable state (registry contents or leftover
local-variable scope), so transpiling the same component twice — with any
other components transpiled in between — yields byte-identical text. -/
theorem c9_deterministic (st1 st2 : TState) (tree : List ClassDef) (n : String) :
    (transpile_component st1 tree n).1 = (transpile_component st2 tree n).1 := by
  simp only [transpile_component]
  cases hf : tree.find? (fun c => c.name == n) with
  | none => simp only [hf]
  | some cd =>
      simp only [hf]
      show Except.ok (generate_js_component st1.lenv (analyze_component_class cd)).1
          = Except.ok (generate_js_component st2.lenv (analyze_component_class cd)).1
      rw [generate_js_component_text_scope_irrel st1.lenv,
        generate_js_component_text_scope_irrel st2.lenv]

/-- C10: a render body with no return statement emits exactly the null text
(all local assignments discarded: no const declarations and no IIFE); and
with several return statements only the last is transpiled — deleting the
earlier ones from the body leaves the emitted text unchanged. -/
theorem c10_render_partition :
    (∀ body : List Stmt, (∀ s ∈ body, isRetStmt s = false) →
        (transpile_render_method body).1 = "null")
  ∧ (∀ (pre post : List Stmt) (e : Option Expr), (∀ s ∈ post, isRetStmt s = false) →
        (transpile_render_method (pre ++ Stmt.ret e :: post)).1
          = (transpile_render_method
              (pre.filter (fun s => !isRetStmt s) ++ Stmt.ret e :: post)).1) := by
  constructor
  · intro body h
    have hacc := render_loop_decomp body [] [] none
    simp only [transpile_render_method]
    rw [hacc]
    simp [lastRet_no_ret body none h]
  · intro pre post e h
    have hfilter : (pre ++ Stmt.ret e :: post).filter (fun s => !isRetStmt s)
        = ((pre.filter (fun s => !isRetStmt s))
            ++ Stmt.ret e :: post).filter (fun s => !isRetStmt s) := by
      have h1 : (Stmt.ret e :: post).filter (fun s => !isRetStmt s)
          = post.filter (fun s => !isRetStmt s) := rfl
      rw [List.filter_append, List.filter_append, h1, List.filter_filter]
      simp
    have hlastStep : ∀ r : Option (Option Expr),
        lastRet r (Stmt.ret e :: post) = some e := by
      intro r
      show lastRet (some e) post = some e
      exact lastRet_no_ret post (some e) h
    have hlast : lastRet none (pre ++ Stmt.ret e :: post)
        = lastRet none ((pre.filter (fun s => !isRetStmt s)) ++ Stmt.ret e :: post) := by
      rw [lastRet_append, lastRet_append, hlastStep, hlastStep]
    have hacc : render_loop ⟨[], [], none⟩ (pre ++ Stmt.ret e :: post)
        = render_loop ⟨[], [], none⟩
            ((pre.filter (fun s => !isRetStmt s)) ++ Stmt.ret e :: post) := by
      rw [render_loop_decomp (pre ++ Stmt.ret e :: post) [] [] none,
        render_loop_decomp ((pre.filter (fun s => !isRetStmt s))
          ++ Stmt.ret e :: post) [] [] none, hfilter, hlast]
    simp only [transpile_render_method, hacc]

/-- C10 witness: a render body of one local assignment emits null, and a
body of two returns emits the same text as the body with the first return
deleted. -/
theorem c10_witness :
    ((transpile_render_method [Stmt.assign [.name "x"] (.constant (.i 1))]).1 = "null")
  ∧ ((transpile_render_method ([Stmt.ret (some (.constant (.i 1)))]
        ++ Stmt.ret (some (.constant (.i 2))) :: [])).1
      = (transpile_render_method
          (([Stmt.ret (some (.constant (.i 1)))].filter (fun s => !isRetStmt s))
            ++ Stmt.ret (some (.constant (.i 2))) :: [])).1) :=
  ⟨c10_render_partition.1 [Stmt.assign [.name "x"] (.constant (.i 1))]
      (by intro s hs; simp at hs; subst hs; rfl),
   c10_render_partition.2 [Stmt.ret (some (.constant (.i 1)))] [] (some (.constant (.i 2)))
      (by intro s hs; simp at hs)⟩
